import Mathlib

/-!
# Verification of the Visual Regex Builder core (src/main.cpp)

A shallow embedding of the node-graph model, linearizer, history manager,
clipboard, template expander, project loader and debug match analyzer of the
Visual Regex Builder ("Pro Edition", `src/main.cpp`), together with proofs
about the specified properties.

Conventions of the embedding:
* C++ `int` is modelled as `Int` (all values involved stay far from overflow;
  the `-1` sentinels of the source are kept as written).
* `float` canvas coordinates are modelled as `ℚ`; every coordinate computation
  performed by the embedded code (fixed-spacing placement, averages of small
  coordinates) is exact, so no rounding behaviour is lost for the properties
  proved here.
* The purely presentational `Color` field, the constant `rect.width/height`
  (160/60 everywhere) and the transient drag geometry `dragOffset` (written
  only between mouse-press and mouse-release and never read afterwards;
  left uninitialized by `AddNode` in the source) are omitted from `Node`.
* `std::vector` becomes `List` (push_back = append, erase(begin) = drop 1,
  back = getLast, pop_back = dropLast).
-/

/-- `enum NodeType` of the source. -/
inductive NodeType where
  | NODE_START | NODE_END
  | NODE_TEXT | NODE_DIGIT | NODE_WHITESPACE
  | NODE_ANY | NODE_WORD | NODE_SYMBOL | NODE_CUSTOM
  | NODE_NOT_DIGIT | NODE_NOT_WHITESPACE | NODE_NOT_WORD
  | NODE_ZERO_OR_MORE | NODE_ONE_OR_MORE | NODE_OPTIONAL
  | NODE_GROUP_START | NODE_GROUP_END | NODE_OR
  deriving DecidableEq, Repr

/-- `struct Node` of the source (id, rect position, type, title, regexValue,
isEditing, selected). -/
structure Node where
  id : Int
  x : ℚ
  y : ℚ
  type : NodeType
  title : String
  regexValue : String
  isEditing : Bool
  selected : Bool
  deriving DecidableEq, Repr

/-- `struct Connection` of the source. -/
structure Connection where
  fromNodeId : Int
  toNodeId : Int
  deriving DecidableEq, Repr

/-- The graph-store globals `nodes`, `connections`, `nextNodeId`; this is the
same field set as the history snapshot `struct AppState`. -/
structure Graph where
  nodes : List Node
  connections : List Connection
  nextNodeId : Int
  deriving DecidableEq, Repr

/-- The full mutable state relevant to history: the live graph plus the two
bounded stacks `undoStack`, `redoStack` (vectors of snapshots). -/
structure App where
  graph : Graph
  undoStack : List Graph
  redoStack : List Graph
  deriving DecidableEq, Repr

/-- The kind-determined default title, from the `switch` in `AddNode`. -/
def defaultTitle : NodeType → String
  | .NODE_CUSTOM => "Custom Text"
  | .NODE_START => "Start of Line"
  | .NODE_END => "End of Line"
  | .NODE_TEXT => "Letters"
  | .NODE_DIGIT => "Numbers"
  | .NODE_WHITESPACE => "Whitespace"
  | .NODE_ANY => "Any Char"
  | .NODE_WORD => "Word Chars"
  | .NODE_SYMBOL => "Symbol @"
  | .NODE_NOT_DIGIT => "Non-Number"
  | .NODE_NOT_WHITESPACE => "Non-Space"
  | .NODE_NOT_WORD => "Non-Word"
  | .NODE_ZERO_OR_MORE => "Repeat (0+)"
  | .NODE_ONE_OR_MORE => "Repeat (1+)"
  | .NODE_OPTIONAL => "Optional"
  | .NODE_GROUP_START => "Start Group"
  | .NODE_GROUP_END => "End Group"
  | .NODE_OR => "OR (Either)"

/-- The kind-determined default regex fragment, from the `switch` in `AddNode`.
(The C++ literal `"\\d"` is the two-character string backslash-d, etc.) -/
def defaultValue : NodeType → String
  | .NODE_CUSTOM => "abc"
  | .NODE_START => "^"
  | .NODE_END => "$"
  | .NODE_TEXT => "[a-zA-Z]+"
  | .NODE_DIGIT => "\\d"
  | .NODE_WHITESPACE => "\\s"
  | .NODE_ANY => "."
  | .NODE_WORD => "\\w"
  | .NODE_SYMBOL => "@"
  | .NODE_NOT_DIGIT => "\\D"
  | .NODE_NOT_WHITESPACE => "\\S"
  | .NODE_NOT_WORD => "\\W"
  | .NODE_ZERO_OR_MORE => "*"
  | .NODE_ONE_OR_MORE => "+"
  | .NODE_OPTIONAL => "?"
  | .NODE_GROUP_START => "("
  | .NODE_GROUP_END => ")"
  | .NODE_OR => "|"

/-- `void AddNode(NodeType type, float x, float y)`: allocate `nextNodeId++`,
construct the node with kind-determined defaults, push it. -/
def AddNode (t : NodeType) (x y : ℚ) (g : Graph) : Graph :=
  { g with
    nodes := g.nodes ++ [{ id := g.nextNodeId, x := x, y := y, type := t,
                           title := defaultTitle t, regexValue := defaultValue t,
                           isEditing := false, selected := false }],
    nextNodeId := g.nextNodeId + 1 }

/-! ## Linearizer (`GenerateRegex`) -/

/-- The entry-selection prefix of `GenerateRegex`: the first loop looks for the
first `NODE_START` node (emitting its fragment); if `currentNodeId` is still
`-1` and the node list is non-empty, the second loop looks for the first node
with no incoming connection (emitting its fragment).  Returns the resulting
`currentNodeId` together with the contents of the stringstream so far. -/
def entryScan (g : Graph) : Int × String :=
  let first :=
    match g.nodes.find? (fun n => n.type == NodeType.NODE_START) with
    | some n => (n.id, n.regexValue)
    | none => ((-1 : Int), "")
  if first.1 == -1 && !g.nodes.isEmpty then
    match g.nodes.find? (fun n => !(g.connections.any (fun c => c.toNodeId == n.id))) with
    | some n => (n.id, first.2 ++ n.regexValue)
    | none => first
  else first

/-- The fragments emitted by the bounded traversal loop of `GenerateRegex`
(`while (foundNext && safety < 100)`): from the current id, follow the first
connection whose `fromNodeId` matches, emit the target node's fragment if the
target id names a node (nothing otherwise), and continue from the target id;
stop when no connection leaves the current id.  `fuel` is the remaining number
of permitted traversal steps (`100 - safety`). -/
def traverseFrags (conns : List Connection) (nodes : List Node) :
    Nat → Int → List String
  | 0, _ => []
  | fuel + 1, cur =>
    match conns.find? (fun c => c.fromNodeId == cur) with
    | none => []
    | some c =>
      let frag :=
        match nodes.find? (fun n => n.id == c.toNodeId) with
        | some n => n.regexValue
        | none => ""
      frag :: traverseFrags conns nodes fuel c.toNodeId

/-- `std::string GenerateRegex()`: entry selection, then the bounded traversal
with safety bound 100; if `currentNodeId` is still `-1` after entry selection
the function returns the empty string. -/
def GenerateRegex (g : Graph) : String :=
  let scan := entryScan g
  if scan.1 == -1 then ""
  else scan.2 ++ String.join (traverseFrags g.connections g.nodes 100 scan.1)

/-! ## History manager (`SaveState`, `Undo`, `Redo`) -/

/-- `void SaveState()`: push a snapshot of {nodes, connections, nextNodeId}
onto `undoStack`; if the stack now holds more than 50 entries erase the
oldest; clear `redoStack`. -/
def SaveState (a : App) : App :=
  let pushed := a.undoStack ++ [a.graph]
  { a with
    undoStack := if pushed.length > 50 then pushed.drop 1 else pushed,
    redoStack := [] }

/-- `void Undo()`: if `undoStack` is empty do nothing; otherwise push the
current graph onto `redoStack`, pop the top of `undoStack` and install it as
the live graph. -/
def Undo (a : App) : App :=
  match a.undoStack.getLast? with
  | none => a
  | some prev =>
    { graph := prev,
      undoStack := a.undoStack.dropLast,
      redoStack := a.redoStack ++ [a.graph] }

/-- `void Redo()`: symmetric to `Undo` with the two stacks swapped. -/
def Redo (a : App) : App :=
  match a.redoStack.getLast? with
  | none => a
  | some next =>
    { graph := next,
      undoStack := a.undoStack ++ [a.graph],
      redoStack := a.redoStack.dropLast }

/-- Apply a pure graph mutation to the live graph, leaving the stacks alone. -/
def graphMutate (f : Graph → Graph) (a : App) : App :=
  { a with graph := f a.graph }

/-- One recorded mutation, the snapshot-then-mutate discipline of the source:
`SaveState()` followed by an arbitrary structural change of the live graph. -/
def recordMutate (f : Graph → Graph) (a : App) : App :=
  graphMutate f (SaveState a)

/-- A sequence of recorded mutations applied in order. -/
def runMutations (fs : List (Graph → Graph)) (a : App) : App :=
  fs.foldl (fun s f => recordMutate f s) a

/-- The session-start state of `main()`: empty stacks and a graph holding the
one default `NODE_START` node added at (100, 300). -/
def initialApp : App :=
  { graph := AddNode NodeType.NODE_START 100 300 { nodes := [], connections := [], nextNodeId := 0 },
    undoStack := [], redoStack := [] }

/-- Erase the volatile `selected` flag (and the equally transient `isEditing`
flag) of a node, for content comparisons that ignore volatile state. -/
def stripNode (n : Node) : Node :=
  { n with selected := false, isEditing := false }

/-- Graph content with volatile per-node flags erased. -/
def stripGraph (g : Graph) : Graph :=
  { g with nodes := g.nodes.map stripNode }


/-! ## Clipboard (`CopyToClipboard`, `PasteFromClipboard`) -/

/-- `struct ClipboardData`. -/
structure ClipboardData where
  nodes : List Node
  connections : List Connection
  deriving DecidableEq, Repr

/-- `void CopyToClipboard()`: keep the nodes with `selected == true` (building
the set of their ids) and the connections whose two endpoints are both in that
id set. -/
def CopyToClipboard (g : Graph) : ClipboardData :=
  let selNodes := g.nodes.filter (fun n => n.selected)
  let selIds := selNodes.map (fun n => n.id)
  { nodes := selNodes,
    connections := g.connections.filter
      (fun c => selIds.contains c.fromNodeId && selIds.contains c.toNodeId) }

/-- The node-insertion loop of `PasteFromClipboard`: for each clipboard node in
order, allocate `nextNodeId++` as its new id, mark it selected, place it at
`pastePos + (originalPos - avgPos)`, and record `oldId -> newId` in the id map.
Returns (new nodes, id map, final `nextNodeId`).  The source keeps the map in a
`std::map`; since a copy of a graph with pairwise-distinct node ids never holds
two entries for one key, the association list below (queried by first match) is
an exact model on such inputs. -/
def pasteInsertNodes (pastePos avgPos : ℚ × ℚ) :
    List Node → Int → List Node × List (Int × Int) × Int
  | [], nid => ([], [], nid)
  | cn :: rest, nid =>
    let newNode := { cn with
                     id := nid, selected := true,
                     x := pastePos.1 + (cn.x - avgPos.1),
                     y := pastePos.2 + (cn.y - avgPos.2) }
    let result := pasteInsertNodes pastePos avgPos rest (nid + 1)
    (newNode :: result.1, (cn.id, nid) :: result.2.1, result.2.2)

/-- `idMap[k]` of the source: the mapped id for `k`, or `0` if the key is
absent (a `std::map` `operator[]` value-initializes missing keys). -/
def mapLookup (idMap : List (Int × Int)) (k : Int) : Int :=
  match idMap.find? (fun p => p.1 == k) with
  | some p => p.2
  | none => 0

/-- The average of the clipboard nodes' positions (the `avgPos` loop of
`PasteFromClipboard`). -/
def pasteAvg (cb : ClipboardData) : ℚ × ℚ :=
  ((cb.nodes.map (fun n => n.x)).sum / cb.nodes.length,
   (cb.nodes.map (fun n => n.y)).sum / cb.nodes.length)

/-- `void PasteFromClipboard(Vector2 pastePos)`: no-op on an empty clipboard;
otherwise snapshot history, deselect every live node, compute the average of
the clipboard positions, insert a freshly-identified re-positioned selected
copy of every clipboard node, and append every clipboard connection re-homed
through the old-id-to-new-id map. -/
def PasteFromClipboard (pastePos : ℚ × ℚ) (cb : ClipboardData) (a : App) : App :=
  if cb.nodes.isEmpty then a
  else
    let a1 := SaveState a
    let g := a1.graph
    let ins := pasteInsertNodes pastePos (pasteAvg cb) cb.nodes g.nextNodeId
    let newConns := cb.connections.map
      (fun c => { fromNodeId := mapLookup ins.2.1 c.fromNodeId,
                  toNodeId := mapLookup ins.2.1 c.toNodeId })
    { a1 with graph :=
        { nodes := g.nodes.map (fun n => { n with selected := false }) ++ ins.1,
          connections := g.connections ++ newConns,
          nextNodeId := ins.2.2 } }

/-- `void DeleteSelected()`: complete no-op when both collections are empty;
otherwise snapshot history, erase every connection one of whose endpoints is a
selected node, then erase every selected node. -/
def DeleteSelected (a : App) : App :=
  if a.graph.nodes.isEmpty && a.graph.connections.isEmpty then a
  else
    graphMutate (fun g =>
      { g with
        connections := g.connections.filter (fun c =>
          !((g.nodes.any (fun n => n.id == c.fromNodeId && n.selected)) ||
            (g.nodes.any (fun n => n.id == c.toNodeId && n.selected)))),
        nodes := g.nodes.filter (fun n => !n.selected) }) (SaveState a)

/-! ## Template expander (`AddTemplate`) -/

/-- `enum TemplateType`. -/
inductive TemplateType where
  | TPL_EMAIL | TPL_DATE_ISO | TPL_PHONE_US | TPL_URL_SIMPLE | TPL_IP_V4
  deriving DecidableEq, Repr

/-- The ordered step list of each template: node kind plus the custom-value
override handed to the `Append` lambda (empty string = no override), exactly
as listed in the `switch` of `AddTemplate`. -/
def templateSteps : TemplateType → List (NodeType × String)
  | .TPL_EMAIL =>
      [(.NODE_WORD, ""), (.NODE_ONE_OR_MORE, ""), (.NODE_SYMBOL, ""),
       (.NODE_WORD, ""), (.NODE_ONE_OR_MORE, ""), (.NODE_CUSTOM, "."),
       (.NODE_WORD, ""), (.NODE_ONE_OR_MORE, "")]
  | .TPL_DATE_ISO =>
      [(.NODE_DIGIT, ""), (.NODE_CUSTOM, "{4}"), (.NODE_CUSTOM, "-"),
       (.NODE_DIGIT, ""), (.NODE_CUSTOM, "{2}"), (.NODE_CUSTOM, "-"),
       (.NODE_DIGIT, ""), (.NODE_CUSTOM, "{2}")]
  | .TPL_PHONE_US =>
      [(.NODE_DIGIT, ""), (.NODE_CUSTOM, "{3}"), (.NODE_CUSTOM, "-"),
       (.NODE_DIGIT, ""), (.NODE_CUSTOM, "{3}"), (.NODE_CUSTOM, "-"),
       (.NODE_DIGIT, ""), (.NODE_CUSTOM, "{4}")]
  | .TPL_URL_SIMPLE =>
      [(.NODE_CUSTOM, "http"), (.NODE_CUSTOM, "s"), (.NODE_OPTIONAL, ""),
       (.NODE_CUSTOM, "://"), (.NODE_WORD, ""), (.NODE_ONE_OR_MORE, ""),
       (.NODE_CUSTOM, "."), (.NODE_WORD, ""), (.NODE_ONE_OR_MORE, "")]
  | .TPL_IP_V4 =>
      [(.NODE_DIGIT, ""), (.NODE_CUSTOM, "{1,3}"), (.NODE_CUSTOM, "."),
       (.NODE_DIGIT, ""), (.NODE_CUSTOM, "{1,3}"), (.NODE_CUSTOM, "."),
       (.NODE_DIGIT, ""), (.NODE_CUSTOM, "{1,3}"), (.NODE_CUSTOM, "."),
       (.NODE_DIGIT, ""), (.NODE_CUSTOM, "{1,3}")]

/-- Loop state of `AddTemplate`: the graph being extended, `prevNodeId`, and
`currentX`. -/
structure TemplateState where
  g : Graph
  prevNodeId : Int
  currentX : ℚ
  deriving Repr

/-- The `Append` lambda of `AddTemplate`: add a node of the given kind at
(`currentX`, `startY`); if it is a `NODE_CUSTOM` with a non-empty override set
its `regexValue` and `title` to the override; link it from `prevNodeId` unless
that is still `-1`; advance `prevNodeId` and `currentX += 180`. -/
def templateAppend (startY : ℚ) (st : TemplateState) (step : NodeType × String) :
    TemplateState :=
  let g1 := AddNode step.1 st.currentX startY st.g
  let newId := st.g.nextNodeId
  let g2 :=
    if step.1 == NodeType.NODE_CUSTOM && !step.2.isEmpty then
      match g1.nodes.getLast? with
      | some last =>
        { g1 with nodes := g1.nodes.dropLast ++
            [{ last with regexValue := step.2, title := step.2 }] }
      | none => g1
    else g1
  let g3 :=
    if st.prevNodeId == -1 then g2
    else { g2 with connections := g2.connections ++ [{ fromNodeId := st.prevNodeId, toNodeId := newId }] }
  { g := g3, prevNodeId := newId, currentX := st.currentX + 180 }

/-- `void AddTemplate(TemplateType type, float startX, float startY)`:
`SaveState()` once, then chain the template's steps with `Append`. -/
def AddTemplate (t : TemplateType) (startX startY : ℚ) (a : App) : App :=
  let a1 := SaveState a
  let st := (templateSteps t).foldl (templateAppend startY)
    { g := a1.graph, prevNodeId := -1, currentX := startX }
  { a1 with graph := st.g }

/-! ## Project loading (`LoadProject`) -/

/-- One node record of a `.vreg` file body (the persisted fields that the
embedding keeps; color is dropped with the `Color` field itself). -/
structure NodeRec where
  id : Int
  type : NodeType
  x : ℚ
  y : ℚ
  title : String
  regexValue : String
  deriving DecidableEq, Repr

/-- `void LoadProject(...)`, abstracted over the already-tokenized file
content (the `ifstream` plumbing is host I/O): if the header line is not
`VREGEX_1.0` the live state is left untouched; otherwise the node list is
rebuilt from the node records (with `isEditing`/`selected` reset), the
connection records are installed verbatim — the loop performs no check that
`fromNodeId`/`toNodeId` name loaded nodes — and `nextNodeId` is replaced. -/
def LoadProject (header : String) (nodeRecs : List NodeRec)
    (connRecs : List Connection) (nextId : Int) (a : App) : App :=
  if header != "VREGEX_1.0" then a
  else
    { a with graph :=
        { nodes := nodeRecs.map (fun r =>
            { id := r.id, x := r.x, y := r.y, type := r.type, title := r.title,
              regexValue := r.regexValue, isEditing := false, selected := false }),
          connections := connRecs,
          nextNodeId := nextId } }

/-! ## Debug match analyzer (`AnalyzeMatchesForDebug`) -/

/-- `struct DebugGroup`. -/
structure DebugGroup where
  content : String
  start : Int
  length : Int
  deriving DecidableEq, Repr

/-- `struct DebugMatch`. -/
structure DebugMatch where
  start : Int
  length : Int
  fullMatch : String
  groups : List DebugGroup
  deriving DecidableEq, Repr

/-- The data the host regex facility reports for one match: the matched
substring, its offset and length, and the same triple for each numbered
capture group. -/
structure HostMatch where
  fullMatch : String
  pos : Int
  len : Int
  groups : List (String × Int × Int)
  deriving DecidableEq, Repr

/-- `void AnalyzeMatchesForDebug(const std::string&)`, abstracted over the host
regex facility: `host pattern text = none` models the `std::regex` constructor
throwing (the `catch (...)` leaves the freshly cleared list empty); otherwise
the iterator's matches are transcribed into `DebugMatch` records in order. -/
def AnalyzeMatchesForDebug (host : String → String → Option (List HostMatch))
    (patternStr text : String) : List DebugMatch :=
  match host patternStr text with
  | none => []
  | some ms => ms.map (fun m =>
      { start := m.pos, length := m.len, fullMatch := m.fullMatch,
        groups := m.groups.map (fun p => { content := p.1, start := p.2.1, length := p.2.2 }) })

/-- Modelled from the spec: the host regular-expression facility
(`std::regex`, outside this repository) on the empty pattern.  Spec section 6
requires a "standards-compliant extended-regex facility"; under the standard
ECMAScript grammar the empty pattern is syntactically valid and matches the
empty string at every position, so global non-overlapping leftmost-first
match-finding over a text of length L reports L+1 zero-length matches with no
capture groups.  Non-empty patterns are not modelled (no call below uses
them). -/
def hostEmptyPatternModel : String → String → Option (List HostMatch) :=
  fun patternStr text =>
    if patternStr == "" then
      some ((List.range (text.length + 1)).map (fun i =>
        { fullMatch := "", pos := (i : Int), len := 0, groups := [] }))
    else none

/-! ## Frame-loop mutation handlers (`main`) -/

/-- The add-node toolbar buttons: `{ SaveState(); AddNode(type, c.x, c.y); }`. -/
def addNodeButton (t : NodeType) (x y : ℚ) (a : App) : App :=
  recordMutate (AddNode t x y) a

/-- The connection-release handler for a found target: `SaveState();
connections.push_back({connectionStartNodeId, n.id});`. -/
def connectRelease (fromId toId : Int) (a : App) : App :=
  recordMutate (fun g =>
    { g with connections := g.connections ++ [{ fromNodeId := fromId, toNodeId := toId }] }) a

/-- The mouse-press-on-node handler (hit node given by its list index; the
reverse-order hit test itself is presentation geometry): shift toggles the hit
node's selection, otherwise a not-yet-selected hit node becomes the sole
selection; then `SaveState()` marks the undo point for the drag that begins.
(The subsequent `dragOffset` assignments are transient geometry.) -/
def beginDragClick (idx : Nat) (shift : Bool) (a : App) : App :=
  match a.graph.nodes.get? idx with
  | none => a
  | some hit =>
    let nodes1 :=
      if shift then a.graph.nodes.set idx { hit with selected := !hit.selected }
      else if hit.selected then a.graph.nodes
      else (a.graph.nodes.map (fun n => { n with selected := false })).set idx
             { hit with selected := true }
    SaveState { a with graph := { a.graph with nodes := nodes1 } }

/-- The per-frame drag-motion update, composed over the `dragOffset`
mechanics: every selected node is translated by the mouse delta. -/
def dragMove (dx dy : ℚ) (a : App) : App :=
  graphMutate (fun g =>
    { g with nodes := g.nodes.map (fun n =>
        if n.selected then { n with x := n.x + dx, y := n.y + dy } else n) }) a

/-- The ENTER-to-edit handler: for the first selected node, set
`editingNodeId` (frame-local, not graph state), `SaveState()`, then set its
`isEditing` flag. -/
def beginEditEnter (a : App) : App :=
  match a.graph.nodes.find? (fun n => n.selected) with
  | none => a
  | some n =>
    recordMutate (fun g =>
      { g with nodes := g.nodes.map (fun m =>
          if m.id == n.id then { m with isEditing := true } else m) }) a

/-- One printable keystroke while editing node `eid`: append the character to
its `regexValue` (mirroring the title for `NODE_CUSTOM`); no snapshot is
taken here. -/
def editKeystroke (eid : Int) (c : Char) (a : App) : App :=
  graphMutate (fun g =>
    { g with nodes := g.nodes.map (fun n =>
        if n.id == eid then
          let n1 := { n with regexValue := n.regexValue.push c }
          if n1.type == NodeType.NODE_CUSTOM then { n1 with title := n1.regexValue } else n1
        else n) }) a

/-- The edit-commit handler (ENTER or click-away while editing):
`SaveState()`, then clear `editingNodeId` and every `isEditing` flag. -/
def commitEdit (a : App) : App :=
  recordMutate (fun g =>
    { g with nodes := g.nodes.map (fun n => { n with isEditing := false }) }) a

/-! ## Helper lemmas -/

lemma saveState_graph (a : App) : (SaveState a).graph = a.graph := rfl

lemma saveState_redo (a : App) : (SaveState a).redoStack = [] := rfl

lemma saveState_getLast (a : App) :
    (SaveState a).undoStack.getLast? = some a.graph := by
  unfold SaveState
  by_cases h : (a.undoStack ++ [a.graph]).length > 50
  · have hlen : 1 ≤ a.undoStack.length := by
      simp only [List.length_append, List.length_singleton] at h
      omega
    simp only [h, if_true]
    rw [List.drop_append_of_le_length hlen, List.getLast?_concat]
  · simp only [h, if_false]
    exact List.getLast?_concat _

lemma undo_recordMutate (f : Graph → Graph) (a : App) :
    (Undo (recordMutate f a)).graph = a.graph := by
  unfold recordMutate graphMutate Undo
  simp only [saveState_getLast a]

lemma undo_graphMutate_recordMutate (f h : Graph → Graph) (a : App) :
    (Undo (graphMutate h (recordMutate f a))).graph = a.graph :=
  undo_recordMutate (fun g => h (f g)) a

lemma undo_empty (a : App) (h : a.undoStack = []) : Undo a = a := by
  simp [Undo, h]

lemma redo_empty (a : App) (h : a.redoStack = []) : Redo a = a := by
  simp [Redo, h]

lemma undo_then_redo (a : App) (h : a.undoStack = [] → a.redoStack = []) :
    (Redo (Undo a)).graph = a.graph := by
  cases hu : a.undoStack.getLast? with
  | none =>
    have hempty : a.undoStack = [] := by
      cases hl : a.undoStack with
      | nil => rfl
      | cons x xs => rw [hl, List.getLast?_eq_getLast _ (by simp)] at hu; cases hu
    rw [undo_empty a hempty, redo_empty a (h hempty)]
  | some prev =>
    unfold Undo
    rw [hu]
    unfold Redo
    simp only [List.getLast?_concat]

lemma runMutations_redo_empty (fs : List (Graph → Graph)) (a : App)
    (h : a.redoStack = []) : (runMutations fs a).redoStack = [] := by
  induction fs generalizing a with
  | nil => simpa [runMutations] using h
  | cons f rest ih =>
    simp only [runMutations, List.foldl_cons]
    exact ih (recordMutate f a) rfl

/-- C1: for any state reached by a sequence of recorded mutations, one undo
followed by one redo restores a graph whose node content (ignoring the
volatile `selected`/`isEditing` flags), edge content and next-id counter are
those of the state immediately before the undo. -/
theorem undo_redo_round_trip (fs : List (Graph → Graph)) :
    ((Redo (Undo (runMutations fs initialApp))).graph.nodes.map stripNode =
       (runMutations fs initialApp).graph.nodes.map stripNode) ∧
    ((Redo (Undo (runMutations fs initialApp))).graph.connections =
       (runMutations fs initialApp).graph.connections) ∧
    ((Redo (Undo (runMutations fs initialApp))).graph.nextNodeId =
       (runMutations fs initialApp).graph.nextNodeId) := by
  have hredo : (runMutations fs initialApp).redoStack = [] :=
    runMutations_redo_empty fs initialApp rfl
  have h := undo_then_redo (runMutations fs initialApp) (fun _ => hredo)
  rw [h]
  exact ⟨rfl, rfl, rfl⟩

/-- A recorded mutation used to exercise the history bound concretely: it
bumps the id counter (any structural mutation behaves the same for the
history stacks). -/
def bumpCounter : Graph → Graph := fun g => { g with nextNodeId := g.nextNodeId + 1 }

set_option maxRecDepth 40000 in
/-- C4: `SaveState` clears the redo stack, pushes the current graph snapshot
(always the new top of the undo stack), grows the stack when below capacity
and evicts the oldest entry when a push would exceed 50 entries; concretely,
recording 51 mutations leaves exactly 50 entries whose oldest is the snapshot
taken before mutation 2 (the snapshot of the session-start state having been
evicted). -/
theorem saveState_records_bounded :
    (∀ a : App, (SaveState a).redoStack = []) ∧
    (∀ a : App, (SaveState a).undoStack.getLast? = some a.graph) ∧
    (∀ a : App, a.undoStack.length ≤ 49 →
       (SaveState a).undoStack = a.undoStack ++ [a.graph]) ∧
    (∀ a : App, a.undoStack.length = 50 →
       (SaveState a).undoStack = a.undoStack.drop 1 ++ [a.graph]) ∧
    ((runMutations (List.replicate 51 bumpCounter) initialApp).undoStack.length = 50 ∧
     (runMutations (List.replicate 51 bumpCounter) initialApp).undoStack.head? =
       some (runMutations (List.replicate 1 bumpCounter) initialApp).graph ∧
     (runMutations (List.replicate 51 bumpCounter) initialApp).undoStack.head? ≠
       some initialApp.graph) := by
  refine ⟨fun a => rfl, saveState_getLast, fun a h => ?_, fun a h => ?_, by decide⟩
  · unfold SaveState
    have : ¬ (a.undoStack ++ [a.graph]).length > 50 := by
      simp only [List.length_append, List.length_singleton]; omega
    simp only [this, if_false]
  · unfold SaveState
    have : (a.undoStack ++ [a.graph]).length > 50 := by
      simp only [List.length_append, List.length_singleton]; omega
    simp only [this, if_true]
    rw [List.drop_append_of_le_length (by omega)]

/-- The state after 50 recorded mutations, whose undo stack is exactly at
capacity. -/
def app50 : App := runMutations (List.replicate 50 bumpCounter) initialApp

set_option maxRecDepth 40000 in
/-- Witness for C4: the below-capacity and at-capacity hypotheses hold at the
session-start state and at `app50` respectively, and the theorem's
conclusions evaluate there. -/
theorem saveState_records_bounded_witness :
    (initialApp.undoStack.length ≤ 49 ∧
      (SaveState initialApp).undoStack = initialApp.undoStack ++ [initialApp.graph]) ∧
    (app50.undoStack.length = 50 ∧
      (SaveState app50).undoStack = app50.undoStack.drop 1 ++ [app50.graph]) :=
  ⟨⟨by decide, saveState_records_bounded.2.2.1 initialApp (by decide)⟩,
   ⟨by decide, saveState_records_bounded.2.2.2.1 app50 (by decide)⟩⟩

/-- C10: when the graph is non-empty but nothing is selected, `DeleteSelected`
still pushes a full snapshot (the new top of the undo stack is the current
graph) and clears the redo stack while leaving the node and edge collections
unchanged; only when both collections are empty is it a complete no-op. -/
theorem deleteSelected_no_selection_frame (a : App) :
    (a.graph.nodes = [] ∧ a.graph.connections = [] → DeleteSelected a = a) ∧
    (¬(a.graph.nodes = [] ∧ a.graph.connections = []) →
      (∀ n ∈ a.graph.nodes, n.selected = false) →
      (DeleteSelected a).graph = a.graph ∧
      (DeleteSelected a).undoStack.getLast? = some a.graph ∧
      (DeleteSelected a).undoStack.length = (SaveState a).undoStack.length ∧
      (DeleteSelected a).redoStack = []) := by
  constructor
  · intro ⟨h1, h2⟩
    unfold DeleteSelected
    simp [h1, h2]
  · intro hne hsel
    have hguard : (a.graph.nodes.isEmpty && a.graph.connections.isEmpty) = false := by
      rcases Decidable.em (a.graph.nodes = []) with h | h
      · rcases Decidable.em (a.graph.connections = []) with h2 | h2
        · exact absurd ⟨h, h2⟩ hne
        · simp [List.isEmpty_iff, h2]
      · simp [List.isEmpty_iff, h]
    have hconn : a.graph.connections.filter (fun c =>
        !((a.graph.nodes.any (fun n => n.id == c.fromNodeId && n.selected)) ||
          (a.graph.nodes.any (fun n => n.id == c.toNodeId && n.selected)))) =
        a.graph.connections := by
      apply List.filter_eq_self.mpr
      intro c _
      have h1 : a.graph.nodes.any (fun n => n.id == c.fromNodeId && n.selected) = false := by
        apply List.any_eq_false.mpr
        intro n hn
        simp [hsel n hn]
      have h2 : a.graph.nodes.any (fun n => n.id == c.toNodeId && n.selected) = false := by
        apply List.any_eq_false.mpr
        intro n hn
        simp [hsel n hn]
      simp [h1, h2]
    have hnodes : a.graph.nodes.filter (fun n => !n.selected) = a.graph.nodes := by
      apply List.filter_eq_self.mpr
      intro n hn
      simp [hsel n hn]
    unfold DeleteSelected
    rw [hguard]
    simp only [Bool.false_eq_true, if_false]
    unfold graphMutate
    refine ⟨?_, ?_, rfl, rfl⟩
    · show ({ a.graph with connections := _, nodes := _ } : Graph) = a.graph
      rw [saveState_graph] at *
      simp only [hconn, hnodes]
    · exact saveState_getLast a

/-- Witness for C10: at the session-start state (one unselected node, no
edges) the graph is non-empty, nothing is selected, and the conclusions
evaluate. -/
theorem deleteSelected_no_selection_frame_witness :
    ¬(initialApp.graph.nodes = [] ∧ initialApp.graph.connections = []) ∧
    ((DeleteSelected initialApp).graph = initialApp.graph ∧
      (DeleteSelected initialApp).undoStack.getLast? = some initialApp.graph ∧
      (DeleteSelected initialApp).undoStack.length = (SaveState initialApp).undoStack.length ∧
      (DeleteSelected initialApp).redoStack = []) :=
  ⟨by decide,
   (deleteSelected_no_selection_frame initialApp).2 (by decide) (by decide)⟩

/-! ## Cyclic graphs and the traversal bound (C3) -/

/-- The empty graph store. -/
def emptyStore : Graph := { nodes := [], connections := [], nextNodeId := 0 }

/-- A two-node cycle A→B→A built with `AddNode` where neither node is a
start-of-line anchor (A is a word-class node, B a digit-class node). -/
def cycleNoAnchor : Graph :=
  let g := AddNode NodeType.NODE_DIGIT 200 0 (AddNode NodeType.NODE_WORD 0 0 emptyStore)
  { g with connections := [{ fromNodeId := 0, toNodeId := 1 }, { fromNodeId := 1, toNodeId := 0 }] }

/-- A two-node cycle A→B→A where A is the start-of-line anchor and B a
digit-class node. -/
def cycleWithAnchor : Graph :=
  let g := AddNode NodeType.NODE_DIGIT 200 0 (AddNode NodeType.NODE_START 0 0 emptyStore)
  { g with connections := [{ fromNodeId := 0, toNodeId := 1 }, { fromNodeId := 1, toNodeId := 0 }] }

/-- Counterexample to C3: in the plain two-node cycle A→B→A both nodes have an
incoming edge and neither is a start-of-line anchor, so entry selection finds
no entry node and `GenerateRegex` returns the empty string — not a non-empty
string of repeated fragments as the claim states. -/
theorem cycle_linearize_counterexample : GenerateRegex cycleNoAnchor = "" := by decide

set_option maxRecDepth 40000 in
/-- C3 (amended): the traversal loop of `GenerateRegex` emits at most `fuel`
fragments (the source bound is 100 steps, within the documented 100–1000),
so linearization always terminates with the fragments emitted so far rather
than an error; on the plain two-node cycle A→B→A no entry node exists and the
result is the empty string, while with A the start-of-line anchor the result
is A's fragment followed by exactly 100 alternating B/A fragments — a finite,
non-empty string. -/
theorem linearize_cycle_bounded :
    (∀ (conns : List Connection) (nodes : List Node) (fuel : Nat) (cur : Int),
      (traverseFrags conns nodes fuel cur).length ≤ fuel) ∧
    GenerateRegex cycleNoAnchor = "" ∧
    (traverseFrags cycleWithAnchor.connections cycleWithAnchor.nodes 100 0).length = 100 ∧
    GenerateRegex cycleWithAnchor =
      "^" ++ String.join (List.replicate 50 ("\\d" ++ "^")) ∧
    GenerateRegex cycleWithAnchor ≠ "" := by
  refine ⟨?_, by decide, by decide, by decide, by decide⟩
  intro conns nodes fuel
  induction fuel with
  | zero => intro cur; simp [traverseFrags]
  | succ n ih =>
    intro cur
    unfold traverseFrags
    cases conns.find? (fun c => c.fromNodeId == cur) with
    | none => simp
    | some c =>
      simp only [List.length_cons]
      exact Nat.succ_le_succ (ih c.toNodeId)

/-! ## Project load and dangling edges (C9) -/

/-- A well-formed `.vreg` body holding one start-anchor node and one edge
whose target id (99) names no node. -/
def danglingLoaded : App :=
  LoadProject "VREGEX_1.0"
    [{ id := 0, type := NodeType.NODE_START, x := 0, y := 0,
       title := "Start of Line", regexValue := "^" }]
    [{ fromNodeId := 0, toNodeId := 99 }] 1 initialApp

/-- Counterexample to C9: loading a recognized-format project whose edge list
contains an edge to the nonexistent id 99 installs that edge verbatim — after
the load an edge references a node id that no loaded node carries, so the
loader neither rejects nor drops such edges. -/
theorem load_dangling_edge_counterexample :
    danglingLoaded.graph.connections = [{ fromNodeId := 0, toNodeId := 99 }] ∧
    (∀ n ∈ danglingLoaded.graph.nodes, n.id ≠ 99) := by decide

/-- A recognized-format body whose edge list routes through the nonexistent
id 99 and out again: edges 0→99 and 99→1 over the loaded nodes 0 (anchor) and
1 (digit class). -/
def danglingChainLoaded : App :=
  LoadProject "VREGEX_1.0"
    [{ id := 0, type := NodeType.NODE_START, x := 0, y := 0,
       title := "Start of Line", regexValue := "^" },
     { id := 1, type := NodeType.NODE_DIGIT, x := 200, y := 0,
       title := "Numbers", regexValue := "\\d" }]
    [{ fromNodeId := 0, toNodeId := 99 }, { fromNodeId := 99, toNodeId := 1 }]
    2 initialApp

/-- C9 (amended): on a recognized-format load the connection records are
installed verbatim with no referential check against the loaded node set, so
edges referencing nonexistent node ids survive the load.  The Linearizer does
not fail on such an edge: a traversal step whose target id names no node
emits the empty fragment and the traversal continues from the missing id,
following any connection that leaves it (proved in general for the traversal
loop).  Concretely, the dangling load above linearizes to just the anchor
fragment (no connection leaves the missing id), while the chained load
`0→99→1` emits nothing for 99 and then continues to node 1's fragment. -/
theorem load_installs_edges_verbatim (header : String) (nodeRecs : List NodeRec)
    (connRecs : List Connection) (nextId : Int) (a : App)
    (h : header = "VREGEX_1.0") :
    (LoadProject header nodeRecs connRecs nextId a).graph.connections = connRecs ∧
    (∀ (conns : List Connection) (nodes : List Node) (fuel : Nat) (cur : Int)
       (c : Connection),
      conns.find? (fun c2 => c2.fromNodeId == cur) = some c →
      nodes.find? (fun n => n.id == c.toNodeId) = none →
      traverseFrags conns nodes (fuel + 1) cur =
        "" :: traverseFrags conns nodes fuel c.toNodeId) ∧
    GenerateRegex danglingLoaded.graph = "^" ∧
    GenerateRegex danglingChainLoaded.graph = "^" ++ "\\d" := by
  subst h
  refine ⟨rfl, ?_, by decide, by decide⟩
  intro conns nodes fuel cur c h1 h2
  simp only [traverseFrags, h1, h2]

/-- Witness for C9 (amended): the header hypothesis and the general
phantom-continuation conjunct discharged on the concrete dangling-edge
project bodies. -/
theorem load_installs_edges_verbatim_witness :
    ("VREGEX_1.0" : String) = "VREGEX_1.0" ∧
    ((LoadProject "VREGEX_1.0"
        [{ id := 0, type := NodeType.NODE_START, x := 0, y := 0,
           title := "Start of Line", regexValue := "^" }]
        [{ fromNodeId := 0, toNodeId := 99 }] 1 initialApp).graph.connections =
      [{ fromNodeId := 0, toNodeId := 99 }]) ∧
    (danglingChainLoaded.graph.connections.find?
        (fun c2 => c2.fromNodeId == (0 : Int)) =
      some { fromNodeId := 0, toNodeId := 99 } ∧
     danglingChainLoaded.graph.nodes.find? (fun n => n.id == (99 : Int)) = none ∧
     traverseFrags danglingChainLoaded.graph.connections
        danglingChainLoaded.graph.nodes 100 0 =
       "" :: traverseFrags danglingChainLoaded.graph.connections
        danglingChainLoaded.graph.nodes 99 99) ∧
    GenerateRegex danglingLoaded.graph = "^" ∧
    GenerateRegex danglingChainLoaded.graph = "^" ++ "\\d" := by
  have h := load_installs_edges_verbatim "VREGEX_1.0"
    [{ id := 0, type := NodeType.NODE_START, x := 0, y := 0,
       title := "Start of Line", regexValue := "^" }]
    [{ fromNodeId := 0, toNodeId := 99 }] 1 initialApp rfl
  refine ⟨rfl, h.1, ⟨by decide, by decide, ?_⟩, h.2.2.1, h.2.2.2⟩
  exact h.2.1 danglingChainLoaded.graph.connections danglingChainLoaded.graph.nodes
    99 0 { fromNodeId := 0, toNodeId := 99 } (by decide) (by decide)

/-! ## Debug match analysis error handling (C8) -/

/-- Counterexample to C8: with the host facility behaving as the standard
requires on the empty pattern, the analysis of pattern `""` over text `"ab"`
returns three zero-length matches — a non-empty list, contrary to the claim
that an empty pattern yields an empty match list. -/
theorem analyze_empty_pattern_counterexample :
    AnalyzeMatchesForDebug hostEmptyPatternModel "" "ab" ≠ [] := by decide

/-- C8 (amended): the debug match analysis returns an empty list, with no
error, whenever the host facility rejects the pattern as unparsable (the
`catch` path) or reports no matches; for the empty pattern, however, the host
treats the pattern as valid and the analysis returns one zero-length match at
every position of the text (length + 1 entries), not an empty list. -/
theorem analyze_graceful_empty (host : String → String → Option (List HostMatch))
    (patternStr text : String) :
    (host patternStr text = none → AnalyzeMatchesForDebug host patternStr text = []) ∧
    (host patternStr text = some [] → AnalyzeMatchesForDebug host patternStr text = []) ∧
    AnalyzeMatchesForDebug hostEmptyPatternModel "" "ab" =
      [{ start := 0, length := 0, fullMatch := "", groups := [] },
       { start := 1, length := 0, fullMatch := "", groups := [] },
       { start := 2, length := 0, fullMatch := "", groups := [] }] := by
  refine ⟨fun h => ?_, fun h => ?_, by decide⟩
  · unfold AnalyzeMatchesForDebug
    rw [h]
  · unfold AnalyzeMatchesForDebug
    rw [h]
    rfl

/-- Witness for C8 (amended): a host that rejects every pattern and a host
that reports no matches both produce the empty analysis list. -/
theorem analyze_graceful_empty_witness :
    ((fun (_ _ : String) => (none : Option (List HostMatch))) "x" "t" = none ∧
      AnalyzeMatchesForDebug (fun _ _ => none) "x" "t" = []) ∧
    ((fun (_ _ : String) => (some ([] : List HostMatch))) "y" "t" = some [] ∧
      AnalyzeMatchesForDebug (fun _ _ => some []) "y" "t" = []) :=
  ⟨⟨rfl, (analyze_graceful_empty (fun _ _ => none) "x" "t").1 rfl⟩,
   ⟨rfl, (analyze_graceful_empty (fun _ _ => some []) "y" "t").2.1 rfl⟩⟩

/-! ## Entry selection (C2) -/

/-- The spec's entry-selection rule, as the spec words it: prefer the first
node (in node-collection insertion order) whose kind is the start-of-line
anchor; failing that, the first node with zero incoming edges; `none` when
neither exists (in particular for the empty graph). -/
def specSelectEntry (g : Graph) : Option Node :=
  match g.nodes.find? (fun n => n.type == NodeType.NODE_START) with
  | some n => some n
  | none => g.nodes.find? (fun n => !(g.connections.any (fun c => c.toNodeId == n.id)))

/-- C2: `GenerateRegex` starts from exactly the entry node the spec
prescribes — the first start-of-line-anchor node, else the first node with
zero incoming edges — emitting its fragment followed by the bounded
traversal, and returns the empty string when no entry exists; in particular
the empty graph linearizes to the empty string.  (The hypothesis excludes the
id value `-1`, which the source uses as its not-found sentinel and which no
store-allocated node ever carries.) -/
theorem generateRegex_entry_selection (g : Graph) (h : ∀ n ∈ g.nodes, n.id ≠ -1) :
    (GenerateRegex g =
      match specSelectEntry g with
      | none => ""
      | some n => n.regexValue ++ String.join (traverseFrags g.connections g.nodes 100 n.id)) ∧
    (g.nodes = [] → GenerateRegex g = "") := by
  have main : GenerateRegex g =
      match specSelectEntry g with
      | none => ""
      | some n => n.regexValue ++ String.join (traverseFrags g.connections g.nodes 100 n.id) := by
    unfold GenerateRegex entryScan specSelectEntry
    cases hs : g.nodes.find? (fun n => n.type == NodeType.NODE_START) with
    | some n =>
      have hid : n.id ≠ -1 := h n (List.mem_of_find?_eq_some hs)
      have hne : (n.id == -1) = false := by simpa using hid
      simp [hne]
    | none =>
      cases hnil : g.nodes.isEmpty with
      | true =>
        have : g.nodes = [] := List.isEmpty_iff.mp hnil
        simp [this]
      | false =>
        cases hf : g.nodes.find? (fun n => !(g.connections.any (fun c => c.toNodeId == n.id))) with
        | some n =>
          have hid : n.id ≠ -1 := h n (List.mem_of_find?_eq_some hf)
          have hne : (n.id == -1) = false := by simpa using hid
          simp [hnil, hf, hne]
        | none =>
          simp [hnil, hf]
  refine ⟨main, fun hnil => ?_⟩
  rw [main]
  simp [specSelectEntry, hnil]

/-- Witness for C2: the session-start graph (one start-anchor node with id 0)
satisfies the no-sentinel-id hypothesis and linearizes from that anchor. -/
theorem generateRegex_entry_selection_witness :
    (∀ n ∈ initialApp.graph.nodes, n.id ≠ -1) ∧
    ((GenerateRegex initialApp.graph =
        match specSelectEntry initialApp.graph with
        | none => ""
        | some n => n.regexValue ++
            String.join (traverseFrags initialApp.graph.connections initialApp.graph.nodes 100 n.id)) ∧
     (initialApp.graph.nodes = [] → GenerateRegex initialApp.graph = "")) :=
  ⟨by decide, generateRegex_entry_selection initialApp.graph (by decide)⟩

/-! ## The email template (C7) -/

lemma email_fold_graph (g : Graph) (x y : ℚ) (hm : 0 ≤ g.nextNodeId) :
    ((templateSteps TemplateType.TPL_EMAIL).foldl (templateAppend y)
        { g := g, prevNodeId := -1, currentX := x }).g =
      { nodes := g.nodes ++
          [{ id := g.nextNodeId,     x := x,           y := y, type := NodeType.NODE_WORD,
             title := "Word Chars", regexValue := "\\w", isEditing := false, selected := false },
           { id := g.nextNodeId + 1, x := x + 180,     y := y, type := NodeType.NODE_ONE_OR_MORE,
             title := "Repeat (1+)", regexValue := "+", isEditing := false, selected := false },
           { id := g.nextNodeId + 2, x := x + 2*180,   y := y, type := NodeType.NODE_SYMBOL,
             title := "Symbol @", regexValue := "@", isEditing := false, selected := false },
           { id := g.nextNodeId + 3, x := x + 3*180,   y := y, type := NodeType.NODE_WORD,
             title := "Word Chars", regexValue := "\\w", isEditing := false, selected := false },
           { id := g.nextNodeId + 4, x := x + 4*180,   y := y, type := NodeType.NODE_ONE_OR_MORE,
             title := "Repeat (1+)", regexValue := "+", isEditing := false, selected := false },
           { id := g.nextNodeId + 5, x := x + 5*180,   y := y, type := NodeType.NODE_CUSTOM,
             title := ".", regexValue := ".", isEditing := false, selected := false },
           { id := g.nextNodeId + 6, x := x + 6*180,   y := y, type := NodeType.NODE_WORD,
             title := "Word Chars", regexValue := "\\w", isEditing := false, selected := false },
           { id := g.nextNodeId + 7, x := x + 7*180,   y := y, type := NodeType.NODE_ONE_OR_MORE,
             title := "Repeat (1+)", regexValue := "+", isEditing := false, selected := false }],
        connections := g.connections ++
          [{ fromNodeId := g.nextNodeId,     toNodeId := g.nextNodeId + 1 },
           { fromNodeId := g.nextNodeId + 1, toNodeId := g.nextNodeId + 2 },
           { fromNodeId := g.nextNodeId + 2, toNodeId := g.nextNodeId + 3 },
           { fromNodeId := g.nextNodeId + 3, toNodeId := g.nextNodeId + 4 },
           { fromNodeId := g.nextNodeId + 4, toNodeId := g.nextNodeId + 5 },
           { fromNodeId := g.nextNodeId + 5, toNodeId := g.nextNodeId + 6 },
           { fromNodeId := g.nextNodeId + 6, toNodeId := g.nextNodeId + 7 }],
        nextNodeId := g.nextNodeId + 8 } := by
  have h0 : (g.nextNodeId == (-1 : Int)) = false := by simp; omega
  have h1 : (g.nextNodeId + 1 == (-1 : Int)) = false := by simp; omega
  have h2 : (g.nextNodeId + 1 + 1 == (-1 : Int)) = false := by simp; omega
  have h3 : (g.nextNodeId + 1 + 1 + 1 == (-1 : Int)) = false := by simp; omega
  have h4 : (g.nextNodeId + 1 + 1 + 1 + 1 == (-1 : Int)) = false := by simp; omega
  have h5 : (g.nextNodeId + 1 + 1 + 1 + 1 + 1 == (-1 : Int)) = false := by simp; omega
  have h6 : (g.nextNodeId + 1 + 1 + 1 + 1 + 1 + 1 == (-1 : Int)) = false := by simp; omega
  simp only [templateSteps, List.foldl_cons, List.foldl_nil, templateAppend, AddNode,
    List.getLast?_concat, List.dropLast_concat, h0, h1, h2, h3, h4, h5, h6]
  have hW : ¬(NodeType.NODE_WORD = NodeType.NODE_CUSTOM ∧ "".isEmpty = false) := by decide
  have hQ : ¬(NodeType.NODE_ONE_OR_MORE = NodeType.NODE_CUSTOM ∧ "".isEmpty = false) := by decide
  have hS : ¬(NodeType.NODE_SYMBOL = NodeType.NODE_CUSTOM ∧ "".isEmpty = false) := by decide
  have hC : (NodeType.NODE_CUSTOM = NodeType.NODE_CUSTOM ∧ ".".isEmpty = false) := by decide
  have hp0 : ¬(g.nextNodeId = -1) := by omega
  have hp1 : ¬(g.nextNodeId + 1 = -1) := by omega
  have hp2 : ¬(g.nextNodeId + 1 + 1 = -1) := by omega
  have hp3 : ¬(g.nextNodeId + 1 + 1 + 1 = -1) := by omega
  have hp4 : ¬(g.nextNodeId + 1 + 1 + 1 + 1 = -1) := by omega
  have hp5 : ¬(g.nextNodeId + 1 + 1 + 1 + 1 + 1 = -1) := by omega
  have hp6 : ¬(g.nextNodeId + 1 + 1 + 1 + 1 + 1 + 1 = -1) := by omega
  have hq2 : ¬(g.nextNodeId + 2 = -1) := by omega
  have hq3 : ¬(g.nextNodeId + 3 = -1) := by omega
  have hq4 : ¬(g.nextNodeId + 4 = -1) := by omega
  have hq5 : ¬(g.nextNodeId + 5 = -1) := by omega
  have hq6 : ¬(g.nextNodeId + 6 = -1) := by omega
  have hdot : ".".isEmpty = false := by decide
  norm_num [if_neg hW, if_neg hQ, if_neg hS, if_pos hC, hdot, defaultTitle, defaultValue,
    hp0, hp1, hp2, hp3, hp4, hp5, hp6, hq2, hq3, hq4, hq5, hq6]
  repeat' apply And.intro
  all_goals ring

/-- C7: applying the email template records exactly one history snapshot (its
history effect is exactly that of one `SaveState`), keeps the pre-existing
nodes and edges, appends the fixed ordered step sequence word-class,
one-or-more, literal "@", word-class, one-or-more, literal ".", word-class,
one-or-more as eight new nodes with consecutive fresh ids placed at
`startX + index * 180`, links consecutive new nodes by single directed edges,
and creates no edge incident to any pre-existing node (given the store
invariants that the id counter is non-negative — ruling out the source's `-1`
sentinel — and that every existing id is below the counter). -/
theorem email_template_expansion (a : App) (x y : ℚ)
    (hm : 0 ≤ a.graph.nextNodeId) :
    (AddTemplate TemplateType.TPL_EMAIL x y a).undoStack = (SaveState a).undoStack ∧
    (AddTemplate TemplateType.TPL_EMAIL x y a).redoStack = [] ∧
    (AddTemplate TemplateType.TPL_EMAIL x y a).graph.nodes.take a.graph.nodes.length =
      a.graph.nodes ∧
    ((AddTemplate TemplateType.TPL_EMAIL x y a).graph.nodes.drop a.graph.nodes.length).map
        (fun n => (n.id, n.type, n.regexValue, n.x, n.y)) =
      [(a.graph.nextNodeId,     NodeType.NODE_WORD,        "\\w", x,         y),
       (a.graph.nextNodeId + 1, NodeType.NODE_ONE_OR_MORE, "+",   x + 180,   y),
       (a.graph.nextNodeId + 2, NodeType.NODE_SYMBOL,      "@",   x + 2*180, y),
       (a.graph.nextNodeId + 3, NodeType.NODE_WORD,        "\\w", x + 3*180, y),
       (a.graph.nextNodeId + 4, NodeType.NODE_ONE_OR_MORE, "+",   x + 4*180, y),
       (a.graph.nextNodeId + 5, NodeType.NODE_CUSTOM,      ".",   x + 5*180, y),
       (a.graph.nextNodeId + 6, NodeType.NODE_WORD,        "\\w", x + 6*180, y),
       (a.graph.nextNodeId + 7, NodeType.NODE_ONE_OR_MORE, "+",   x + 7*180, y)] ∧
    (AddTemplate TemplateType.TPL_EMAIL x y a).graph.connections =
      a.graph.connections ++
      [{ fromNodeId := a.graph.nextNodeId,     toNodeId := a.graph.nextNodeId + 1 },
       { fromNodeId := a.graph.nextNodeId + 1, toNodeId := a.graph.nextNodeId + 2 },
       { fromNodeId := a.graph.nextNodeId + 2, toNodeId := a.graph.nextNodeId + 3 },
       { fromNodeId := a.graph.nextNodeId + 3, toNodeId := a.graph.nextNodeId + 4 },
       { fromNodeId := a.graph.nextNodeId + 4, toNodeId := a.graph.nextNodeId + 5 },
       { fromNodeId := a.graph.nextNodeId + 5, toNodeId := a.graph.nextNodeId + 6 },
       { fromNodeId := a.graph.nextNodeId + 6, toNodeId := a.graph.nextNodeId + 7 }] ∧
    ((∀ n ∈ a.graph.nodes, n.id < a.graph.nextNodeId) →
      ∀ c ∈ (AddTemplate TemplateType.TPL_EMAIL x y a).graph.connections.drop
              a.graph.connections.length,
        ∀ n ∈ a.graph.nodes, c.fromNodeId ≠ n.id ∧ c.toNodeId ≠ n.id) := by
  have hg : (AddTemplate TemplateType.TPL_EMAIL x y a).graph =
      ((templateSteps TemplateType.TPL_EMAIL).foldl (templateAppend y)
        { g := a.graph, prevNodeId := -1, currentX := x }).g := rfl
  rw [email_fold_graph a.graph x y hm] at hg
  have hconn : (AddTemplate TemplateType.TPL_EMAIL x y a).graph.connections =
      a.graph.connections ++
      [{ fromNodeId := a.graph.nextNodeId,     toNodeId := a.graph.nextNodeId + 1 },
       { fromNodeId := a.graph.nextNodeId + 1, toNodeId := a.graph.nextNodeId + 2 },
       { fromNodeId := a.graph.nextNodeId + 2, toNodeId := a.graph.nextNodeId + 3 },
       { fromNodeId := a.graph.nextNodeId + 3, toNodeId := a.graph.nextNodeId + 4 },
       { fromNodeId := a.graph.nextNodeId + 4, toNodeId := a.graph.nextNodeId + 5 },
       { fromNodeId := a.graph.nextNodeId + 5, toNodeId := a.graph.nextNodeId + 6 },
       { fromNodeId := a.graph.nextNodeId + 6, toNodeId := a.graph.nextNodeId + 7 }] := by
    rw [hg]
  refine ⟨rfl, rfl, ?_, ?_, hconn, ?_⟩
  · rw [hg]
    exact List.take_left _ _
  · rw [hg]
    rw [List.drop_left]
    norm_num
  · intro hfresh c hc n hn
    rw [hconn, List.drop_left] at hc
    have hnid := hfresh n hn
    simp only [List.mem_cons, List.not_mem_nil, or_false] at hc
    rcases hc with h | h | h | h | h | h | h
    all_goals subst h
    all_goals exact ⟨by simp; omega, by simp; omega⟩

/-- Witness for C7: the email template applied to the session-start state at
(500, 100); the counter non-negativity hypothesis holds there. -/
theorem email_template_expansion_witness :
    (0 : Int) ≤ initialApp.graph.nextNodeId ∧
    ((AddTemplate TemplateType.TPL_EMAIL 500 100 initialApp).undoStack =
        (SaveState initialApp).undoStack ∧
     (AddTemplate TemplateType.TPL_EMAIL 500 100 initialApp).redoStack = [] ∧
     (AddTemplate TemplateType.TPL_EMAIL 500 100 initialApp).graph.nodes.take
         initialApp.graph.nodes.length = initialApp.graph.nodes ∧
     ((AddTemplate TemplateType.TPL_EMAIL 500 100 initialApp).graph.nodes.drop
         initialApp.graph.nodes.length).map
         (fun n => (n.id, n.type, n.regexValue, n.x, n.y)) =
       [(initialApp.graph.nextNodeId,     NodeType.NODE_WORD,        "\\w", 500,           100),
        (initialApp.graph.nextNodeId + 1, NodeType.NODE_ONE_OR_MORE, "+",   500 + 180,     100),
        (initialApp.graph.nextNodeId + 2, NodeType.NODE_SYMBOL,      "@",   500 + 2*180,   100),
        (initialApp.graph.nextNodeId + 3, NodeType.NODE_WORD,        "\\w", 500 + 3*180,   100),
        (initialApp.graph.nextNodeId + 4, NodeType.NODE_ONE_OR_MORE, "+",   500 + 4*180,   100),
        (initialApp.graph.nextNodeId + 5, NodeType.NODE_CUSTOM,      ".",   500 + 5*180,   100),
        (initialApp.graph.nextNodeId + 6, NodeType.NODE_WORD,        "\\w", 500 + 6*180,   100),
        (initialApp.graph.nextNodeId + 7, NodeType.NODE_ONE_OR_MORE, "+",   500 + 7*180,   100)] ∧
     (AddTemplate TemplateType.TPL_EMAIL 500 100 initialApp).graph.connections =
       initialApp.graph.connections ++
       [{ fromNodeId := initialApp.graph.nextNodeId,     toNodeId := initialApp.graph.nextNodeId + 1 },
        { fromNodeId := initialApp.graph.nextNodeId + 1, toNodeId := initialApp.graph.nextNodeId + 2 },
        { fromNodeId := initialApp.graph.nextNodeId + 2, toNodeId := initialApp.graph.nextNodeId + 3 },
        { fromNodeId := initialApp.graph.nextNodeId + 3, toNodeId := initialApp.graph.nextNodeId + 4 },
        { fromNodeId := initialApp.graph.nextNodeId + 4, toNodeId := initialApp.graph.nextNodeId + 5 },
        { fromNodeId := initialApp.graph.nextNodeId + 5, toNodeId := initialApp.graph.nextNodeId + 6 },
        { fromNodeId := initialApp.graph.nextNodeId + 6, toNodeId := initialApp.graph.nextNodeId + 7 }] ∧
     ((∀ n ∈ initialApp.graph.nodes, n.id < initialApp.graph.nextNodeId) →
       ∀ c ∈ (AddTemplate TemplateType.TPL_EMAIL 500 100 initialApp).graph.connections.drop
               initialApp.graph.connections.length,
         ∀ n ∈ initialApp.graph.nodes, c.fromNodeId ≠ n.id ∧ c.toNodeId ≠ n.id)) :=
  ⟨by decide, email_template_expansion initialApp 500 100 (by decide)⟩

/-! ## Snapshot-then-mutate ordering (C5) -/

lemma map_strip_set : ∀ (l : List Node) (i : Nat) (v w : Node),
    l.get? i = some w → stripNode v = stripNode w →
    (l.set i v).map stripNode = l.map stripNode
  | [], _, _, _ => by intro h _; simp at h
  | x :: xs, 0, v, w => by
    intro h hs
    simp only [List.get?] at h
    cases h
    simp only [List.set, List.map_cons, hs]
  | x :: xs, i + 1, v, w => by
    intro h hs
    simp only [List.get?] at h
    simp only [List.set, List.map_cons]
    rw [map_strip_set xs i v w h hs]

lemma map_strip_deselect (l : List Node) :
    (l.map (fun n => { n with selected := false })).map stripNode = l.map stripNode := by
  rw [List.map_map]
  rfl

/-- The selected custom node the concrete editing session starts from. -/
def customNode0 : Node :=
  { id := 0, x := 0, y := 0, type := NodeType.NODE_CUSTOM,
    title := "Custom Text", regexValue := "abc",
    isEditing := false, selected := true }

/-- The session-start default node (the one `AddNode NODE_START 100 300`
creates). -/
def startNode0 : Node :=
  { id := 0, x := 100, y := 300, type := NodeType.NODE_START,
    title := "Start of Line", regexValue := "^",
    isEditing := false, selected := false }

/-- A concrete editing session: one selected custom node with fragment
`"abc"`, empty history. -/
def editApp0 : App :=
  { graph := { nodes := [customNode0], connections := [], nextNodeId := 1 },
    undoStack := [], redoStack := [] }

/-- `editApp0` after the begin-edit handler. -/
def editApp1 : App := beginEditEnter editApp0

/-- `editApp1` after one keystroke appending `z` to the edited fragment. -/
def editApp2 : App := editKeystroke 0 'z' editApp1

/-- `editApp2` after the edit-commit handler. -/
def editApp3 : App := commitEdit editApp2

/-- Counterexample to C5: the `SaveState` performed when a text edit is
committed runs after the keystrokes already mutated the fragment, so the
snapshot it pushes is the post-edit graph (`"abcz"`), and the undo performed
immediately after the commit leaves the fragment at `"abcz"` instead of
restoring the pre-mutation fragment `"abc"` that was live when editing
began. -/
theorem commit_edit_mutate_then_snapshot_counterexample :
    editApp3.undoStack.getLast? = some editApp2.graph ∧
    (Undo editApp3).graph.nodes.map (fun n => n.regexValue) = ["abcz"] ∧
    editApp1.graph.nodes.map (fun n => n.regexValue) = ["abc"] := by decide

/-- C5 (amended): adding a node, deleting the selection (on a non-empty
graph), creating an edge, beginning a drag and beginning a text edit all
capture their history snapshot strictly before the structural mutation, so an
immediate undo restores the pre-mutation graph (exactly, or up to the
volatile selection/editing flags for the drag case, whose click first updates
the selection).  Committing a text edit also pushes a snapshot, but of the
already-edited graph — the text mutation happened during editing, covered by
the begin-edit snapshot — so an immediate undo after the commit leaves the
graph unchanged, and the pre-edit state is restored by the second undo (as in
the concrete editing session `editApp0..editApp3`). -/
theorem snapshot_strictly_before_mutation :
    (∀ (t : NodeType) (x y : ℚ) (a : App), (Undo (addNodeButton t x y a)).graph = a.graph) ∧
    (∀ a : App, ¬(a.graph.nodes = [] ∧ a.graph.connections = []) →
      (Undo (DeleteSelected a)).graph = a.graph) ∧
    (∀ (i j : Int) (a : App), (Undo (connectRelease i j a)).graph = a.graph) ∧
    (∀ (idx : Nat) (shift : Bool) (dx dy : ℚ) (a : App) (hit : Node),
      a.graph.nodes.get? idx = some hit →
      stripGraph (Undo (dragMove dx dy (beginDragClick idx shift a))).graph =
        stripGraph a.graph) ∧
    (∀ (a : App) (c : Char) (n0 : Node),
      a.graph.nodes.find? (fun n => n.selected) = some n0 →
      (Undo (editKeystroke n0.id c (beginEditEnter a))).graph = a.graph) ∧
    (∀ a : App, (commitEdit a).undoStack.getLast? = some a.graph ∧
      (Undo (commitEdit a)).graph = a.graph) ∧
    (Undo (Undo editApp3)).graph = editApp0.graph := by
  refine ⟨?_, ?_, ?_, ?_, ?_, ?_, by decide⟩
  · intro t x y a
    exact undo_recordMutate (AddNode t x y) a
  · intro a hne
    have hguard : (a.graph.nodes.isEmpty && a.graph.connections.isEmpty) = false := by
      rcases Decidable.em (a.graph.nodes = []) with h | h
      · rcases Decidable.em (a.graph.connections = []) with h2 | h2
        · exact absurd ⟨h, h2⟩ hne
        · simp [List.isEmpty_iff, h2]
      · simp [List.isEmpty_iff, h]
    unfold DeleteSelected
    rw [hguard]
    simp only [Bool.false_eq_true, if_false]
    exact undo_recordMutate _ a
  · intro i j a
    exact undo_recordMutate _ a
  · intro idx shift dx dy a hit hhit
    unfold beginDragClick
    rw [hhit]
    have hund : ∀ a1 : App, (Undo (dragMove dx dy (SaveState a1))).graph = a1.graph := by
      intro a1
      exact undo_recordMutate _ a1
    cases shift with
    | true =>
      simp only [if_true]
      rw [hund]
      unfold stripGraph
      simp only
      congr 1
      exact map_strip_set a.graph.nodes idx _ hit hhit rfl
    | false =>
      simp only [Bool.false_eq_true, if_false]
      cases hsel : hit.selected with
      | true =>
        simp only [if_true]
        rw [hund]
      | false =>
        simp only [Bool.false_eq_true, if_false]
        rw [hund]
        unfold stripGraph
        simp only
        congr 1
        rw [map_strip_set (a.graph.nodes.map (fun n => { n with selected := false })) idx
              ({ hit with selected := true }) ({ hit with selected := false })
              (by rw [List.get?_eq_getElem?, List.getElem?_map, ← List.get?_eq_getElem?, hhit]; rfl) rfl]
        exact map_strip_deselect a.graph.nodes
  · intro a c n0 hfind
    simp only [beginEditEnter, hfind]
    apply undo_graphMutate_recordMutate
  · intro a
    exact ⟨saveState_getLast a, undo_recordMutate _ a⟩

/-- Witness for C5 (amended): the delete, drag and edit conjuncts discharged
on the concrete session-start and editing states. -/
theorem snapshot_strictly_before_mutation_witness :
    (¬(initialApp.graph.nodes = [] ∧ initialApp.graph.connections = []) ∧
      (Undo (DeleteSelected initialApp)).graph = initialApp.graph) ∧
    (initialApp.graph.nodes.get? 0 = some startNode0 ∧
      stripGraph (Undo (dragMove 7 9 (beginDragClick 0 false initialApp))).graph =
        stripGraph initialApp.graph) ∧
    (editApp0.graph.nodes.find? (fun n => n.selected) = some customNode0 ∧
      (Undo (editKeystroke customNode0.id 'q' (beginEditEnter editApp0))).graph =
        editApp0.graph) :=
  ⟨⟨by decide, snapshot_strictly_before_mutation.2.1 initialApp (by decide)⟩,
   ⟨by decide, snapshot_strictly_before_mutation.2.2.2.1 0 false 7 9 initialApp startNode0 (by decide)⟩,
   ⟨by decide, snapshot_strictly_before_mutation.2.2.2.2.1 editApp0 'q' customNode0 (by decide)⟩⟩

/-! ## Clipboard structure preservation (C6) -/

/-- The consecutive ids `s, s+1, ..., s+n-1` that `nextNodeId++` hands out
during a paste of `n` nodes. -/
def intRange (s : Int) : Nat → List Int
  | 0 => []
  | n + 1 => s :: intRange (s + 1) n

lemma intRange_mem : ∀ (n : Nat) (s k : Int), k ∈ intRange s n → s ≤ k ∧ k < s + n
  | 0, s, k => by intro h; simp [intRange] at h
  | n + 1, s, k => by
    intro h
    simp only [intRange, List.mem_cons] at h
    rcases h with h | h
    · subst h; omega
    · have := intRange_mem n (s + 1) k h
      push_cast
      omega

lemma intRange_nodup : ∀ (n : Nat) (s : Int), (intRange s n).Nodup
  | 0, s => by simp [intRange]
  | n + 1, s => by
    simp only [intRange, List.nodup_cons]
    refine ⟨fun hmem => ?_, intRange_nodup n (s + 1)⟩
    have := intRange_mem n (s + 1) s hmem
    omega

lemma pasteInsert_nextId : ∀ (cns : List Node) (p avg : ℚ × ℚ) (nid : Int),
    (pasteInsertNodes p avg cns nid).2.2 = nid + cns.length
  | [], _, _, nid => by simp [pasteInsertNodes]
  | cn :: rest, p, avg, nid => by
    simp only [pasteInsertNodes, List.length_cons]
    rw [pasteInsert_nextId rest p avg (nid + 1)]
    push_cast
    ring

lemma pasteInsert_ids : ∀ (cns : List Node) (p avg : ℚ × ℚ) (nid : Int),
    (pasteInsertNodes p avg cns nid).1.map (fun n => n.id) = intRange nid cns.length
  | [], _, _, nid => by simp [pasteInsertNodes, intRange]
  | cn :: rest, p, avg, nid => by
    simp only [pasteInsertNodes, List.length_cons, List.map_cons, intRange]
    rw [pasteInsert_ids rest p avg (nid + 1)]

lemma pasteInsert_selected : ∀ (cns : List Node) (p avg : ℚ × ℚ) (nid : Int),
    ∀ nw ∈ (pasteInsertNodes p avg cns nid).1, nw.selected = true
  | [], _, _, nid => by intro nw h; simp [pasteInsertNodes] at h
  | cn :: rest, p, avg, nid => by
    intro nw h
    simp only [pasteInsertNodes, List.mem_cons] at h
    rcases h with h | h
    · subst h; rfl
    · exact pasteInsert_selected rest p avg (nid + 1) nw h

lemma pasteInsert_lookup : ∀ (cns : List Node) (p avg : ℚ × ℚ) (nid k : Int),
    (cns.map (fun n => n.id)).Nodup → k ∈ cns.map (fun n => n.id) →
    nid ≤ mapLookup (pasteInsertNodes p avg cns nid).2.1 k ∧
      mapLookup (pasteInsertNodes p avg cns nid).2.1 k < nid + cns.length
  | [], _, _, nid, k => by intro _ h; simp at h
  | cn :: rest, p, avg, nid, k => by
    intro hnodup hmem
    simp only [List.map_cons, List.nodup_cons] at hnodup
    simp only [List.map_cons, List.mem_cons] at hmem
    simp only [pasteInsertNodes, mapLookup, List.find?]
    rcases hmem with h | h
    · subst h
      simp only [beq_self_eq_true]
      simp only [List.length_cons]
      constructor
      · omega
      · push_cast; omega
    · have hne : (cn.id == k) = false := by
        have : cn.id ≠ k := fun hEq => hnodup.1 (hEq ▸ h)
        simp [this]
      rw [hne]
      have ih := pasteInsert_lookup rest p avg (nid + 1) k hnodup.2 h
      simp only [mapLookup] at ih
      simp only [List.length_cons]
      push_cast
      omega

/-- C6: copy stores exactly the selected nodes plus only the edges whose both
endpoints are selected; pasting a (non-empty, duplicate-free, endpoint-closed)
buffer into a store whose node ids respect the id counter allocates the
consecutive fresh ids `nextNodeId..`, all distinct and distinct from every
pre-existing id, marks the pasted nodes selected while deselecting all
others, appends exactly the buffered edges re-homed through the
old-id-to-new-id map, and creates no edge incident to any pre-existing
node. -/
theorem clipboard_copy_paste_structure (g : Graph) (pp : ℚ × ℚ)
    (cb : ClipboardData) (a : App)
    (hne : cb.nodes ≠ [])
    (hnodup : (cb.nodes.map (fun n => n.id)).Nodup)
    (hclosed : ∀ c ∈ cb.connections,
      c.fromNodeId ∈ cb.nodes.map (fun n => n.id) ∧
      c.toNodeId ∈ cb.nodes.map (fun n => n.id))
    (hfresh : ∀ n ∈ a.graph.nodes, n.id < a.graph.nextNodeId) :
    (∀ n : Node, n ∈ (CopyToClipboard g).nodes ↔ (n ∈ g.nodes ∧ n.selected = true)) ∧
    (∀ c : Connection, c ∈ (CopyToClipboard g).connections ↔
      (c ∈ g.connections ∧
        c.fromNodeId ∈ (g.nodes.filter (fun n => n.selected)).map (fun n => n.id) ∧
        c.toNodeId ∈ (g.nodes.filter (fun n => n.selected)).map (fun n => n.id))) ∧
    ((PasteFromClipboard pp cb a).graph.nodes.take a.graph.nodes.length =
        a.graph.nodes.map (fun n => { n with selected := false })) ∧
    (((PasteFromClipboard pp cb a).graph.nodes.drop a.graph.nodes.length).map
        (fun n => n.id) = intRange a.graph.nextNodeId cb.nodes.length) ∧
    ((((PasteFromClipboard pp cb a).graph.nodes.drop a.graph.nodes.length).map
        (fun n => n.id)).Nodup) ∧
    (∀ nw ∈ (PasteFromClipboard pp cb a).graph.nodes.drop a.graph.nodes.length,
        nw.selected = true) ∧
    (∀ nw ∈ (PasteFromClipboard pp cb a).graph.nodes.drop a.graph.nodes.length,
        ∀ n ∈ a.graph.nodes, nw.id ≠ n.id) ∧
    ((PasteFromClipboard pp cb a).graph.connections =
      a.graph.connections ++ cb.connections.map (fun c =>
        { fromNodeId := mapLookup
            (pasteInsertNodes pp (pasteAvg cb) cb.nodes a.graph.nextNodeId).2.1
            c.fromNodeId,
          toNodeId := mapLookup
            (pasteInsertNodes pp (pasteAvg cb) cb.nodes a.graph.nextNodeId).2.1
            c.toNodeId })) ∧
    (∀ c ∈ (PasteFromClipboard pp cb a).graph.connections.drop
        a.graph.connections.length,
      ∀ n ∈ a.graph.nodes, c.fromNodeId ≠ n.id ∧ c.toNodeId ≠ n.id) ∧
    ((PasteFromClipboard pp cb a).graph.nextNodeId =
      a.graph.nextNodeId + cb.nodes.length) := by
  have hempty : cb.nodes.isEmpty = false := by
    simp [List.isEmpty_iff, hne]
  have hr : PasteFromClipboard pp cb a =
      { graph :=
          { nodes := a.graph.nodes.map (fun n => { n with selected := false }) ++
              (pasteInsertNodes pp (pasteAvg cb) cb.nodes a.graph.nextNodeId).1,
            connections := a.graph.connections ++ cb.connections.map (fun c =>
              { fromNodeId := mapLookup
                  (pasteInsertNodes pp (pasteAvg cb) cb.nodes a.graph.nextNodeId).2.1
                  c.fromNodeId,
                toNodeId := mapLookup
                  (pasteInsertNodes pp (pasteAvg cb) cb.nodes a.graph.nextNodeId).2.1
                  c.toNodeId }),
            nextNodeId :=
              (pasteInsertNodes pp (pasteAvg cb) cb.nodes a.graph.nextNodeId).2.2 },
        undoStack := (SaveState a).undoStack,
        redoStack := [] } := by
    unfold PasteFromClipboard
    rw [hempty]
    rfl
  have hdeslen : (a.graph.nodes.map (fun n => { n with selected := false })).length =
      a.graph.nodes.length := List.length_map _ _
  have hdrop : (PasteFromClipboard pp cb a).graph.nodes.drop a.graph.nodes.length =
      (pasteInsertNodes pp (pasteAvg cb) cb.nodes a.graph.nextNodeId).1 := by
    rw [hr]
    simp only
    rw [← hdeslen, List.drop_left]
  refine ⟨?_, ?_, ?_, ?_, ?_, ?_, ?_, ?_, ?_, ?_⟩
  · intro n
    simp [CopyToClipboard, List.mem_filter]
  · intro c
    simp [CopyToClipboard, List.mem_filter]
  · rw [hr]
    simp only
    rw [← hdeslen, List.take_left]
  · rw [hdrop]
    exact pasteInsert_ids cb.nodes pp (pasteAvg cb) a.graph.nextNodeId
  · rw [hdrop, pasteInsert_ids]
    exact intRange_nodup cb.nodes.length a.graph.nextNodeId
  · rw [hdrop]
    exact pasteInsert_selected cb.nodes pp (pasteAvg cb) a.graph.nextNodeId
  · rw [hdrop]
    intro nw hnw n hn
    have hmem : nw.id ∈ intRange a.graph.nextNodeId cb.nodes.length := by
      rw [← pasteInsert_ids cb.nodes pp (pasteAvg cb) a.graph.nextNodeId]
      exact List.mem_map_of_mem _ hnw
    have hb := intRange_mem cb.nodes.length a.graph.nextNodeId nw.id hmem
    have := hfresh n hn
    omega
  · rw [hr]
  · rw [hr]
    simp only
    rw [List.drop_left]
    intro c hc n hn
    rcases List.mem_map.mp hc with ⟨c0, hc0, hcEq⟩
    have hb1 := pasteInsert_lookup cb.nodes pp (pasteAvg cb) a.graph.nextNodeId
      c0.fromNodeId hnodup (hclosed c0 hc0).1
    have hb2 := pasteInsert_lookup cb.nodes pp (pasteAvg cb) a.graph.nextNodeId
      c0.toNodeId hnodup (hclosed c0 hc0).2
    have := hfresh n hn
    subst hcEq
    constructor <;> (simp only; omega)
  · rw [hr]
    simp only
    exact pasteInsert_nextId cb.nodes pp (pasteAvg cb) a.graph.nextNodeId

/-- Selected word-class node A of the concrete copy/paste scenario. -/
def nodeA : Node :=
  { id := 0, x := 0, y := 0, type := NodeType.NODE_WORD,
    title := "Word Chars", regexValue := "\\w", isEditing := false, selected := true }

/-- Selected quantifier node B of the concrete copy/paste scenario. -/
def nodeB : Node :=
  { id := 1, x := 200, y := 0, type := NodeType.NODE_ONE_OR_MORE,
    title := "Repeat (1+)", regexValue := "+", isEditing := false, selected := true }

/-- A store holding the two selected nodes A, B and the edge A→B. -/
def gAB : Graph :=
  { nodes := [nodeA, nodeB],
    connections := [{ fromNodeId := 0, toNodeId := 1 }], nextNodeId := 2 }

/-- The clipboard produced by copying `gAB`. -/
def cbAB : ClipboardData := CopyToClipboard gAB

/-- The app state whose live graph is `gAB`, into which `cbAB` is pasted. -/
def appAB : App := { graph := gAB, undoStack := [], redoStack := [] }

/-- Witness for C6: the hypotheses hold for the buffer obtained by copying
the two-node store `gAB` (spec test 6), and the conclusions evaluate on
pasting it back into `gAB` at (400, 200). -/
theorem clipboard_copy_paste_structure_witness :
    cbAB.nodes ≠ [] ∧
    (cbAB.nodes.map (fun n => n.id)).Nodup ∧
    (∀ c ∈ cbAB.connections,
      c.fromNodeId ∈ cbAB.nodes.map (fun n => n.id) ∧
      c.toNodeId ∈ cbAB.nodes.map (fun n => n.id)) ∧
    (∀ n ∈ appAB.graph.nodes, n.id < appAB.graph.nextNodeId) ∧
    ((∀ n : Node, n ∈ (CopyToClipboard gAB).nodes ↔ (n ∈ gAB.nodes ∧ n.selected = true)) ∧
     (∀ c : Connection, c ∈ (CopyToClipboard gAB).connections ↔
       (c ∈ gAB.connections ∧
         c.fromNodeId ∈ (gAB.nodes.filter (fun n => n.selected)).map (fun n => n.id) ∧
         c.toNodeId ∈ (gAB.nodes.filter (fun n => n.selected)).map (fun n => n.id))) ∧
     ((PasteFromClipboard (400, 200) cbAB appAB).graph.nodes.take appAB.graph.nodes.length =
         appAB.graph.nodes.map (fun n => { n with selected := false })) ∧
     (((PasteFromClipboard (400, 200) cbAB appAB).graph.nodes.drop
         appAB.graph.nodes.length).map (fun n => n.id) =
       intRange appAB.graph.nextNodeId cbAB.nodes.length) ∧
     ((((PasteFromClipboard (400, 200) cbAB appAB).graph.nodes.drop
         appAB.graph.nodes.length).map (fun n => n.id)).Nodup) ∧
     (∀ nw ∈ (PasteFromClipboard (400, 200) cbAB appAB).graph.nodes.drop
         appAB.graph.nodes.length, nw.selected = true) ∧
     (∀ nw ∈ (PasteFromClipboard (400, 200) cbAB appAB).graph.nodes.drop
         appAB.graph.nodes.length, ∀ n ∈ appAB.graph.nodes, nw.id ≠ n.id) ∧
     ((PasteFromClipboard (400, 200) cbAB appAB).graph.connections =
       appAB.graph.connections ++ cbAB.connections.map (fun c =>
         { fromNodeId := mapLookup
             (pasteInsertNodes (400, 200) (pasteAvg cbAB) cbAB.nodes
               appAB.graph.nextNodeId).2.1 c.fromNodeId,
           toNodeId := mapLookup
             (pasteInsertNodes (400, 200) (pasteAvg cbAB) cbAB.nodes
               appAB.graph.nextNodeId).2.1 c.toNodeId })) ∧
     (∀ c ∈ (PasteFromClipboard (400, 200) cbAB appAB).graph.connections.drop
         appAB.graph.connections.length,
       ∀ n ∈ appAB.graph.nodes, c.fromNodeId ≠ n.id ∧ c.toNodeId ≠ n.id) ∧
     ((PasteFromClipboard (400, 200) cbAB appAB).graph.nextNodeId =
       appAB.graph.nextNodeId + cbAB.nodes.length)) :=
  ⟨by decide, by decide, by decide, by decide,
   clipboard_copy_paste_structure gAB (400, 200) cbAB appAB
     (by decide) (by decide) (by decide) (by decide)⟩
